import Mathlib

/-!
Verification of the citekey algorithm and matching engine of a
SublimeText "papers" citations plugin (`citations.py`).

The Python source is shallowly embedded below:
  * pure functions (`gen_crc`, `gen_hash`, `gen_title_hash`, `gen_doi_hash`,
    `gen_citekey`, `split_key`) become Lean functions on `String` / `Option String`
    (Python `None` is `Option.none`; Python `"%s" % x` formatting of a possibly
    absent value is `pyFormat`; Python truthiness of an optional string is
    `pyTruthy`);
  * the sqlite store becomes an explicit `DB` structure (a list of publication
    rows and a list of PDF-attachment rows, in natural iteration order), and the
    two SQL queries of the source become list traversals with the same
    filtering semantics (SQL `NULL` comparisons are false);
  * machine integers are `Nat` with explicit `% 2 ^ 32` behaviour encoded in the
    bitwise CRC-32 step (all intermediate values stay below `2 ^ 32`);
  * Python exceptions become `Option` / `Except` results;
  * the pyparsing grammar `citations_expr` becomes a hand-rolled
    recursive-descent scanner with the same token and whitespace semantics.
-/

set_option maxRecDepth 100000

namespace Citations

/-! ## UTF-8 and CRC-32 (model of `zlib.crc32(bytes(s, "UTF-8")) & 0xffffffff`) -/

/-- UTF-8 encoding of a Unicode code point, as a list of byte values. -/
def utf8EncodeNat (c : Nat) : List Nat :=
  if c < 0x80 then [c]
  else if c < 0x800 then
    [0xC0 ||| (c >>> 6), 0x80 ||| (c &&& 0x3F)]
  else if c < 0x10000 then
    [0xE0 ||| (c >>> 12), 0x80 ||| ((c >>> 6) &&& 0x3F), 0x80 ||| (c &&& 0x3F)]
  else
    [0xF0 ||| (c >>> 18), 0x80 ||| ((c >>> 12) &&& 0x3F),
     0x80 ||| ((c >>> 6) &&& 0x3F), 0x80 ||| (c &&& 0x3F)]

/-- UTF-8 bytes of a string (model of Python `bytes(s, "UTF-8")`). -/
def strBytes (s : String) : List Nat :=
  (s.data.map (fun c => utf8EncodeNat c.toNat)).flatten

/-- One bit step of the reflected CRC-32 (ISO-HDLC) with polynomial 0xEDB88320. -/
def crc32Step (crc : Nat) : Nat :=
  if crc % 2 = 1 then (crc / 2) ^^^ 0xEDB88320 else crc / 2

/-- Fold one byte into the CRC state (eight bit steps). -/
def crc32Byte (crc b : Nat) : Nat :=
  crc32Step^[8] (crc ^^^ b)

/-- CRC-32 (ISO-HDLC) of a byte list: init 0xFFFFFFFF, final xor 0xFFFFFFFF.
This is the checksum computed by `zlib.crc32`. -/
def crc32 (bs : List Nat) : Nat :=
  (bs.foldl crc32Byte 0xFFFFFFFF) ^^^ 0xFFFFFFFF

/-- Embedding of `gen_crc(s)`: the unsigned CRC-32 of the UTF-8 encoding of `s`.
The Python source masks `zlib.crc32`'s result with `& 0xffffffff` to undo sign
extension; the `Nat`-valued model is that unsigned value directly. -/
def gen_crc (s : String) : Nat :=
  crc32 (strBytes s)

/-! ## Hash engine: the fixed alphabets and `gen_hash` -/

/-- Embedding of `alphabet = [chr(x) for x in range(ord('a'), ord('z')+1)]`. -/
def alphabet : List Char :=
  (List.range 26).map (fun i => Char.ofNat (97 + i))

/-- Embedding of `title_suffix = [chr(x) for x in range(ord('t'), ord('w')+1)]`. -/
def title_suffix : List Char :=
  (List.range 4).map (fun i => Char.ofNat (116 + i))

/-- Embedding of `doi_suffix = [chr(x) for x in range(ord('b'), ord('k')+1)]`. -/
def doi_suffix : List Char :=
  (List.range 10).map (fun i => Char.ofNat (98 + i))

/-- Embedding of `gen_hash(text, suffixes)`. Python's list indexing is modelled
with `List.getD`; both indices are always in range for nonempty `suffixes`
(`n3 < suffixes.length`, `n4 < 26`), so the default `'?'` is never produced. -/
def gen_hash (text : String) (suffixes : List Char) : String :=
  let n1 := gen_crc text
  let n2 := n1 % (alphabet.length * suffixes.length)
  let n3 := n2 / alphabet.length
  let n4 := n2 % alphabet.length
  String.mk [suffixes.getD n3 '?', alphabet.getD n4 '?']

/-- Embedding of `gen_title_hash(title)` (`None` propagates). -/
def gen_title_hash : Option String → Option String
  | none => none
  | some t => some (gen_hash t title_suffix)

/-- Embedding of `gen_doi_hash(doi)` (`None` propagates). -/
def gen_doi_hash : Option String → Option String
  | none => none
  | some d => some (gen_hash d doi_suffix)

/-! ## Citekey codec -/

/-- Python `"%s" % x` where `x` is an optional string: `None` prints as "None". -/
def pyFormat : Option String → String
  | none => "None"
  | some s => s

/-- Python truthiness of an optional string: `None` and `""` are falsy. -/
def pyTruthy : Option String → Bool
  | none => false
  | some s => !s.isEmpty

/-- Embedding of `gen_citekey(base, year, doi, title)`: `"%s:%s%s"` formatting,
where the hash slot may be `None` (printed as the text "None"). -/
def gen_citekey (base year : String) (doi title : Option String) : String :=
  if pyTruthy doi then
    base ++ ":" ++ year ++ pyFormat (gen_doi_hash doi)
  else
    base ++ ":" ++ year ++ pyFormat (gen_title_hash title)

/-- Model of Python `str.split(":")` on a character list: splits at every
colon, keeping empty parts, and always returns at least one part. -/
def pySplitOnColon : List Char → List (List Char)
  | [] => [[]]
  | c :: rest =>
    match pySplitOnColon rest with
    | [] => [[]]
    | h :: t => if c = ':' then [] :: h :: t else (c :: h) :: t

/-- Embedding of `split_key(citekey)`. Python's 2-variable unpacking of
`citekey.split(":")` raises `ValueError` unless there are exactly two parts;
that failure is `none`. Slices `suffix[:4]` / `suffix[4:]` are list
`take` / `drop`. -/
def split_key (citekey : String) : Option (String × String × String) :=
  match pySplitOnColon citekey.data with
  | [b, suffix] => some (String.mk b, String.mk (suffix.take 4), String.mk (suffix.drop 4))
  | _ => none

/-! ## Sanity: the CRC model matches the standard CRC-32 check value
(`crc("123456789") = 0xCBF43926`), and matches `zlib` on the strings used in
the witnesses below. -/

theorem crc32_check_value : gen_crc ("123456789") = 0xCBF43926 := by decide

theorem gen_doi_hash_example : gen_doi_hash (some ("10.1/xyz")) = some ("br") := by decide

/-! ## The store (Papers sqlite database)

A publication row carries the columns read by the source; a PDF row carries
`(object_id, Path)`. Columns of a sqlite table are nullable, so string columns
are `Option String`; fetched `NULL` becomes Python `None`. The list order is
the store's natural iteration order (the order an unordered `SELECT` yields). -/

structure Publication where
  rowid : Nat
  author_year_string : Option String
  attributed_title : Option String
  canonical_title : Option String
  doi : Option String
  citekey_base : Option String
  publication_date : Option String

structure PdfRow where
  object_id : Nat
  path : String

structure DB where
  publications : List Publication
  pdfs : List PdfRow

/-- Python slice `date[2:6]`, at the character-list level. -/
def yearSlice (date : String) : String :=
  String.mk ((date.data.drop 2).take 4)

/-- Embedding of `list_citations(db)`: for every publication row, compute
`year = date[2:6]` and `gen_citekey(base, year, doi, canonical)` inside
`try: ... except: pass`. The only statement in the guarded block that can
raise is the slice `date[2:6]` when `date` is `None` (`TypeError`); a slice of
a too-short string simply yields a shorter (possibly empty) year, and
`gen_citekey` never raises. So a row is skipped exactly when its
`publication_date` is `NULL`, and otherwise yields
`("%s %s" % (author_year, title), citekey)`. -/
def list_citations (db : DB) : List (String × String) :=
  db.publications.filterMap (fun p =>
    match p.publication_date with
    | none => none
    | some date =>
        some (pyFormat p.author_year_string ++ " " ++ pyFormat p.attributed_title,
              gen_citekey (pyFormat p.citekey_base) (yearSlice date) p.doi p.canonical_title))

/-- Embedding of `get_citations()`: `reversed(list(list_citations(db)))`. -/
def get_citations (db : DB) : List (String × String) :=
  (list_citations db).reverse

/-! ## PDF resolver (`find_pdf`) -/

/-- SQL `substr(publication_date, 3, 4)` (1-indexed start 3, length 4), which
is `NULL` when the column is `NULL`. -/
def sqlSubstrYear : Option String → Option String
  | none => none
  | some s => some (yearSlice s)

/-- The SQL `WHERE citekey_base = ? AND substr(publication_date, 3, 4) == ?`
filter. A `NULL` column never compares equal. -/
def matchesBaseYear (base year : String) (p : Publication) : Bool :=
  p.citekey_base == some base && sqlSubstrYear p.publication_date == some year

/-- The paths of the rows returned by
`SELECT Path FROM PDF WHERE object_id = ?`, in store order. -/
def pdfPaths (db : DB) (rowid : Nat) : List String :=
  (db.pdfs.filter (fun r => r.object_id == rowid)).map (fun r => r.path)

/-- The candidate test
`citehash == gen_title_hash(title) or citehash == gen_doi_hash(doi)`;
comparing the `str` citehash with `None` is `False`. -/
def hashMatches (citehash : String) (p : Publication) : Bool :=
  some citehash == gen_title_hash p.canonical_title ||
    some citehash == gen_doi_hash p.doi

/-- The configured Papers2 root directory (module constant `basepath`). -/
def basepath : String := "/Users/username/Papers2/"

/-- Model of `os.path.join(a, b)` for POSIX paths and two arguments. -/
def pathJoin (a b : String) : String :=
  if b.data.head? == some '/' then b
  else if a.data == [] || a.data.getLast? == some '/' then a ++ b
  else a ++ "/" ++ b

/-- The candidate loop of `find_pdf`: scan candidates in store order; on a
hash match return the first associated PDF path joined with `basepath`; if a
matching candidate has no PDF rows, keep scanning. -/
def scanCandidates (db : DB) (citehash : String) : List Publication → Option String
  | [] => none
  | p :: rest =>
    if hashMatches citehash p then
      match pdfPaths db p.rowid with
      | [] => scanCandidates db citehash rest
      | path :: _ => some (pathJoin basepath path)
    else scanCandidates db citehash rest

/-- The failures of `find_pdf`: the `ValueError` escaping from `split_key`'s
unpacking, or the `Exception("No matching PDF found for %s" % citekey)`
raised when the scan is exhausted (modelled with its message string). -/
inductive PdfError where
  | valueError : PdfError
  | noMatchingPdf : String → PdfError
deriving DecidableEq

/-- Embedding of `find_pdf(db, citekey)`. -/
def find_pdf (db : DB) (citekey : String) : Except PdfError String :=
  match split_key citekey with
  | none => .error .valueError
  | some (base, year, citehash) =>
    match scanCandidates db citehash (db.publications.filter (matchesBaseYear base year)) with
    | some path => .ok path
    | none => .error (.noMatchingPdf ("No matching PDF found for " ++ citekey))

/-! ## Citation text parser

Model of the pyparsing grammar

  `citekey_expr = Combine(Word(alphas) + ":" + Word(nums, exact=4) + Word(alphas, exact=2))`
  `citations_expr = Literal("\x7b").suppress() + OneOrMore(citekey_expr.setParseAction(add_loc) + Optional(",").suppress()) + Literal("\x7d").suppress()`

and of `citations_expr.scanString(text)` (used by `parse_line` and
`citekeys_at_cursor`), as a recursive-descent scanner:

  * each grammar element skips leading whitespace (pyparsing's default
    `" \t\n\r"`), but the pieces inside `Combine` are adjacent;
  * `Word(alphas)` greedily takes one-or-more ASCII letters; `Word(..., exact=n)`
    takes exactly `n` matching characters (more may follow);
  * a parse action receives the post-whitespace location of its match, so each
    key is paired with the absolute offset of its first character;
  * `scanString` tries a match at each position, left to right, and resumes
    after the end of each successful match; a reported match spans from the
    opening brace to just after the closing brace. -/

def isAlphaChar (c : Char) : Bool :=
  ('a' ≤ c && c ≤ 'z') || ('A' ≤ c && c ≤ 'Z')

def isDigitChar (c : Char) : Bool :=
  '0' ≤ c && c ≤ '9'

def isWsChar (c : Char) : Bool :=
  c == ' ' || c == '\t' || c == '\n' || c == '\r'

def braceOpen : Char := Char.ofNat 123

def braceClose : Char := Char.ofNat 125

/-- Skip leading whitespace, keeping track of the absolute position. -/
def skipWs : List Char → Nat → List Char × Nat
  | [], pos => ([], pos)
  | c :: rest, pos =>
    if isWsChar c then skipWs rest (pos + 1) else (c :: rest, pos)

/-- Take exactly `n` characters satisfying `p` (`Word(chars, exact=n)`). -/
def takeExact (p : Char → Bool) : Nat → List Char → Option (List Char × List Char)
  | 0, cs => some ([], cs)
  | _ + 1, [] => none
  | n + 1, c :: cs =>
    if p c then (takeExact p n cs).map (fun tr => (c :: tr.1, tr.2)) else none

/-- Parse one `citekey_expr` at the current position (no leading-whitespace
skip here; the pieces are adjacent inside `Combine`). Returns the combined
token, the remaining input and the position just after the token. -/
def parseKey (cs : List Char) (pos : Nat) : Option (String × List Char × Nat) :=
  let letters := cs.takeWhile isAlphaChar
  let rest1 := cs.dropWhile isAlphaChar
  if letters.isEmpty then none
  else if rest1.head? = some ':' then
    (takeExact isDigitChar 4 rest1.tail).bind (fun dr =>
      (takeExact isAlphaChar 2 dr.2).bind (fun ar =>
        let tok := letters ++ ':' :: (dr.1 ++ ar.1)
        some (String.mk tok, ar.2, pos + tok.length)))
  else none

/-- Consume one optional comma (`Optional(",").suppress()`), skipping the
whitespace in front of it. -/
def skipComma (cs : List Char) (pos : Nat) : List Char × Nat :=
  let ws := skipWs cs pos
  match ws.1 with
  | ',' :: rest => (rest, ws.2 + 1)
  | _ => (cs, pos)

/-- The `OneOrMore(citekey_expr.setParseAction(add_loc) + Optional(",").suppress())`
loop: repeatedly skip whitespace and parse a key (recording its
post-whitespace offset) followed by an optional comma; stop before the first
position where no key parses; fail if no key parsed at all. The fuel only
bounds the recursion; each iteration consumes at least one character. -/
def parseKeysLoop : Nat → List Char → Nat → List (Nat × String) →
    Option (List (Nat × String) × List Char × Nat)
  | 0, _, _, _ => none
  | fuel + 1, cs, pos, acc =>
    let ws := skipWs cs pos
    match parseKey ws.1 ws.2 with
    | none => if acc.isEmpty then none else some (acc.reverse, cs, pos)
    | some (key, rest, p2) =>
      let next := skipComma rest p2
      parseKeysLoop fuel next.1 next.2 ((ws.2, key) :: acc)

/-- Try to parse one whole `citations_expr` group starting at the current
position: whitespace, `\x7b`, the key loop, whitespace, `\x7d`. Returns the
located keys, the offset of the opening brace and the offset just after the
closing brace. -/
def parseGroup (cs : List Char) (pos : Nat) :
    Option (List (Nat × String) × Nat × Nat) :=
  let ws := skipWs cs pos
  match ws.1 with
  | c :: rest =>
    if c == braceOpen then
      match parseKeysLoop (rest.length + 1) rest (ws.2 + 1) [] with
      | none => none
      | some (keys, rest2, p2) =>
        let ws3 := skipWs rest2 p2
        match ws3.1 with
        | c3 :: _ => if c3 == braceClose then some (keys, ws.2, ws3.2 + 1) else none
        | [] => none
      else none
  | [] => none

/-- The `scanString` sweep: try a match at each position left to right;
resume after the end of each successful match. -/
def scanAux : Nat → List Char → Nat → List (List (Nat × String) × Nat × Nat)
  | 0, _, _ => []
  | fuel + 1, cs, pos =>
    match parseGroup cs pos with
    | some (keys, s, e) => (keys, s, e) :: scanAux fuel (cs.drop (e - pos)) e
    | none =>
      match cs with
      | [] => []
      | _ :: rest => scanAux fuel rest (pos + 1)

/-- Embedding of `citations_expr.scanString(text)`: every citation group in
`text`, with per-key offsets and the group's absolute span. -/
def scan (text : String) : List (List (Nat × String) × Nat × Nat) :=
  scanAux (text.length + 1) text.data 0

/-! ## Helper lemmas: the hash alphabets and `gen_hash` -/

theorem length_alphabet : alphabet.length = 26 := rfl

theorem alphabet_ne_colon : ∀ c ∈ alphabet, c ≠ ':' := by decide

theorem title_suffix_ne_colon : ∀ c ∈ title_suffix, c ≠ ':' := by decide

theorem doi_suffix_ne_colon : ∀ c ∈ doi_suffix, c ≠ ':' := by decide

theorem getD_ne_colon : ∀ (L : List Char) (n : Nat), (∀ c ∈ L, c ≠ ':') →
    L.getD n '?' ≠ ':'
  | [], n, _ => by simp [List.getD]
  | c :: t, 0, h => by simpa using h c (by simp)
  | c :: t, n + 1, h => by
      simpa [List.getD] using getD_ne_colon t n (fun x hx => h x (by simp [hx]))

/-- Structure of a generated hash: the selected suffix character followed by
the selected lowercase character. -/
theorem gen_hash_data (t : String) (A : List Char) :
    (gen_hash t A).data =
      [A.getD (gen_crc t % (26 * A.length) / 26) '?',
       alphabet.getD (gen_crc t % (26 * A.length) % 26) '?'] := by
  simp [gen_hash, length_alphabet]

theorem gen_hash_length (t : String) (A : List Char) : (gen_hash t A).length = 2 := by
  simp [String.length, gen_hash_data]

theorem gen_hash_ne_colon (t : String) (A : List Char) (hA : ∀ c ∈ A, c ≠ ':') :
    ∀ c ∈ (gen_hash t A).data, c ≠ ':' := by
  rw [gen_hash_data]
  intro c hc
  simp only [List.mem_cons, List.not_mem_nil, or_false] at hc
  rcases hc with rfl | rfl
  · exact getD_ne_colon A _ hA
  · exact getD_ne_colon alphabet _ alphabet_ne_colon

/-- A DOI-derived hash never equals a title-derived hash: the two suffix
alphabets (`b..k` and `t..w`) are disjoint, so already the first characters
differ. -/
theorem doi_title_hash_ne (d t : String) :
    gen_hash d doi_suffix ≠ gen_hash t title_suffix := by
  intro he
  have hdata : (gen_hash d doi_suffix).data = (gen_hash t title_suffix).data := by
    rw [he]
  rw [gen_hash_data, gen_hash_data] at hdata
  have hd10 : gen_crc d % (26 * doi_suffix.length) / 26 < 10 :=
    Nat.div_lt_of_lt_mul (Nat.mod_lt _ (by decide))
  have ht4 : gen_crc t % (26 * title_suffix.length) / 26 < 4 :=
    Nat.div_lt_of_lt_mul (Nat.mod_lt _ (by decide))
  have hkey : ∀ i < 10, ∀ j < 4, doi_suffix.getD i '?' ≠ title_suffix.getD j '?' := by
    decide
  exact hkey _ hd10 _ ht4 (by injection hdata)

/-! ## Helper lemmas: `split_key` -/

theorem pySplitOnColon_no_colon : ∀ (l : List Char), (∀ c ∈ l, c ≠ ':') →
    pySplitOnColon l = [l]
  | [], _ => rfl
  | c :: rest, h => by
      have hr := pySplitOnColon_no_colon rest (fun x hx => h x (List.mem_cons_of_mem _ hx))
      have hc : c ≠ ':' := h c (List.mem_cons_self _ _)
      simp [pySplitOnColon, hr, hc]

theorem pySplitOnColon_single (a b : List Char) (ha : ∀ c ∈ a, c ≠ ':')
    (hb : ∀ c ∈ b, c ≠ ':') : pySplitOnColon (a ++ ':' :: b) = [a, b] := by
  induction a with
  | nil => simp [pySplitOnColon, pySplitOnColon_no_colon b hb]
  | cons c tl ih =>
      have hc : c ≠ ':' := ha c (List.mem_cons_self _ _)
      have ht := ih (fun x hx => ha x (List.mem_cons_of_mem _ hx))
      simp [pySplitOnColon, ht, hc]

theorem split_key_no_colon (s : String) (h : ∀ c ∈ s.data, c ≠ ':') :
    split_key s = none := by
  simp [split_key, pySplitOnColon_no_colon s.data h]

theorem split_key_append (a b : String) (ha : ∀ c ∈ a.data, c ≠ ':')
    (hb : ∀ c ∈ b.data, c ≠ ':') :
    split_key (a ++ ":" ++ b) =
      some (a, String.mk (b.data.take 4), String.mk (b.data.drop 4)) := by
  have hdata : (a ++ ":" ++ b).data = a.data ++ ':' :: b.data := by
    simp [String.data_append]
  simp only [split_key, hdata, pySplitOnColon_single a.data b.data ha hb]

theorem take_len_append (a b : List Char) : (a ++ b).take a.length = a := by
  induction a with
  | nil => rfl
  | cons c tl ih => simp [ih]

theorem drop_len_append (a b : List Char) : (a ++ b).drop a.length = b := by
  induction a with
  | nil => rfl
  | cons c tl ih => simp [ih]

/-- Splitting a well-formed citekey `base ++ ":" ++ year ++ hash` (colon-free
base and year, 4-character year, colon-free hash) recovers its parts. -/
theorem split_key_citekey (base year h : String)
    (hbase : ∀ c ∈ base.data, c ≠ ':') (hyc : ∀ c ∈ year.data, c ≠ ':')
    (hy4 : year.length = 4) (hhc : ∀ c ∈ h.data, c ≠ ':') :
    split_key (base ++ ":" ++ year ++ h) = some (base, year, h) := by
  have hassoc : base ++ ":" ++ year ++ h = base ++ ":" ++ (year ++ h) := by
    apply String.ext
    simp [String.data_append]
  have hcf : ∀ c ∈ (year ++ h).data, c ≠ ':' := by
    intro c hc
    rw [String.data_append] at hc
    rcases List.mem_append.mp hc with h1 | h2
    · exact hyc c h1
    · exact hhc c h2
  rw [hassoc, split_key_append base (year ++ h) hbase hcf]
  have h4 : year.data.length = 4 := hy4
  rw [String.data_append, ← h4, take_len_append, drop_len_append]

/-! ## Claim theorems -/

/-- C2: for every string `text` and every 4-character suffix alphabet `A`,
`gen_hash text A` is the character of `A` at index `n3` followed by the
lowercase-alphabet character at index `n4`, where `n1 = gen_crc text` (the
unsigned CRC-32 of the UTF-8 bytes of `text`), `n2 = n1 mod (26 * 4)`,
`n3 = n2 div 26` and `n4 = n2 mod 26`; the result is always a 2-character
string. Determinism is inherent: `gen_hash` is a pure function, so the same
input always yields the same output. -/
theorem C2_gen_hash_structure (text : String) (A : List Char) (hA : A.length = 4) :
    (gen_hash text A).data =
      [A.getD (gen_crc text % (26 * 4) / 26) '?',
       alphabet.getD (gen_crc text % (26 * 4) % 26) '?'] ∧
    (gen_hash text A).length = 2 :=
  ⟨by rw [gen_hash_data, hA], gen_hash_length text A⟩

theorem C2_witness :
    (gen_hash ("abc") title_suffix).data =
      [title_suffix.getD (gen_crc ("abc") % (26 * 4) / 26) '?',
       alphabet.getD (gen_crc ("abc") % (26 * 4) % 26) '?'] ∧
    (gen_hash ("abc") title_suffix).length = 2 :=
  C2_gen_hash_structure ("abc") title_suffix (by decide)

/-- C3 (amended): for every colon-free base, every colon-free 4-character
year, and every doi/title pair whose selected hash exists (`doiHash doi` when
the doi is truthy, `titleHash title` otherwise), splitting the generated
citekey returns exactly the base, the year, and that hash. (The claim's
original "every 4-character year" admits years containing a colon, for which
the round-trip fails; see the counterexample.) -/
theorem C3_roundtrip (base year h : String) (doi title : Option String)
    (hbase : ∀ c ∈ base.data, c ≠ ':')
    (hyc : ∀ c ∈ year.data, c ≠ ':')
    (hy4 : year.length = 4)
    (hh : (if pyTruthy doi then gen_doi_hash doi else gen_title_hash title) = some h) :
    split_key (gen_citekey base year doi title) = some (base, year, h) := by
  by_cases hd : pyTruthy doi = true
  · rw [if_pos hd] at hh
    cases doi with
    | none => simp [pyTruthy] at hd
    | some d =>
      have hgh : gen_hash d doi_suffix = h := by simpa [gen_doi_hash] using hh
      have hck : gen_citekey base year (some d) title = base ++ ":" ++ year ++ h := by
        simp [gen_citekey, hd, gen_doi_hash, pyFormat, hgh]
      rw [hck]
      exact split_key_citekey base year h hbase hyc hy4
        (hgh ▸ gen_hash_ne_colon d doi_suffix doi_suffix_ne_colon)
  · have hd' : pyTruthy doi = false := by simpa using hd
    rw [if_neg hd] at hh
    cases title with
    | none => simp [gen_title_hash] at hh
    | some t =>
      have hgh : gen_hash t title_suffix = h := by simpa [gen_title_hash] using hh
      have hck : gen_citekey base year doi (some t) = base ++ ":" ++ year ++ h := by
        simp [gen_citekey, hd', gen_title_hash, pyFormat, hgh]
      rw [hck]
      exact split_key_citekey base year h hbase hyc hy4
        (hgh ▸ gen_hash_ne_colon t title_suffix title_suffix_ne_colon)

/-- C3 counterexample: the claim admits every 4-character year, but with the
4-character year ":000" (alphabetic base "a", non-empty doi "x") the colon
inside the year makes `split_key` see three colon-separated parts, so the
split fails with `ValueError` instead of returning `("a", ":000", doiHash "x")`. -/
theorem C3_counterexample :
    split_key (gen_citekey ("a") (":000") (some ("x")) none) = none := by decide

theorem C3_witness :
    split_key (gen_citekey ("smith") ("2020") (some ("10.1/xyz")) none) =
      some ("smith", "2020", "br") :=
  C3_roundtrip ("smith") ("2020") ("br") (some ("10.1/xyz")) none
    (by decide) (by decide) (by decide) (by decide)

/-- C6: with a truthy (present, non-empty) doi, the citekey's hash component
is the doi hash — which never equals any title hash, the suffix alphabets
being disjoint — and with a falsy doi it is the (formatted) title hash. -/
theorem C6_gen_citekey_prefers_doi (base year : String) (doi title : Option String) :
    (pyTruthy doi = true →
       gen_citekey base year doi title = base ++ ":" ++ year ++ pyFormat (gen_doi_hash doi) ∧
       gen_doi_hash doi ≠ gen_title_hash title) ∧
    (pyTruthy doi = false →
       gen_citekey base year doi title = base ++ ":" ++ year ++ pyFormat (gen_title_hash title)) := by
  constructor
  · intro hd
    refine ⟨by simp [gen_citekey, hd], ?_⟩
    cases doi with
    | none => simp [pyTruthy] at hd
    | some d =>
      cases title with
      | none => simp [gen_doi_hash, gen_title_hash]
      | some t =>
        simp only [gen_doi_hash, gen_title_hash, ne_eq, Option.some.injEq]
        exact doi_title_hash_ne d t
  · intro hd
    simp [gen_citekey, hd]

theorem C6_witness :
    (gen_citekey ("b") ("2020") (some ("x")) (some ("t"))
        = "b" ++ ":" ++ "2020" ++ pyFormat (gen_doi_hash (some ("x"))) ∧
      gen_doi_hash (some ("x")) ≠ gen_title_hash (some ("t"))) ∧
    gen_citekey ("b") ("2020") none (some ("t"))
        = "b" ++ ":" ++ "2020" ++ pyFormat (gen_title_hash (some ("t"))) :=
  ⟨(C6_gen_citekey_prefers_doi ("b") ("2020") (some ("x")) (some ("t"))).1 (by decide),
   (C6_gen_citekey_prefers_doi ("b") ("2020") none (some ("t"))).2 (by decide)⟩

/-- C7: `split_key` fails (Python `ValueError`, the spec's `MalformedCitekey`)
on every input without a colon; on every input with a single colon — written
`a ++ ":" ++ b` with colon-free `a` and `b` — it returns the part before the
colon, the first 4 characters after it, and the remaining characters. -/
theorem C7_split_key (s a b : String)
    (hs : ∀ c ∈ s.data, c ≠ ':')
    (ha : ∀ c ∈ a.data, c ≠ ':') (hb : ∀ c ∈ b.data, c ≠ ':') :
    split_key s = none ∧
    split_key (a ++ ":" ++ b) =
      some (a, String.mk (b.data.take 4), String.mk (b.data.drop 4)) :=
  ⟨split_key_no_colon s hs, split_key_append a b ha hb⟩

theorem C7_witness :
    split_key ("bad-key-no-colon") = none ∧
    split_key ("smith" ++ ":" ++ "2020br") =
      some ("smith", String.mk (("2020br" : String).data.take 4),
            String.mk (("2020br" : String).data.drop 4)) :=
  C7_split_key ("bad-key-no-colon") ("smith") ("2020br")
    (by decide) (by decide) (by decide)

/-- C10: with a falsy doi (absent or empty) and an absent title,
`gen_citekey` does not fail: the `None` returned by `gen_title_hash` is
formatted by `"%s"` as the literal 4-character text "None", giving
`base ++ ":" ++ year ++ "None"`. -/
theorem C10_gen_citekey_none_title (base year : String) (doi : Option String)
    (hd : pyTruthy doi = false) :
    gen_citekey base year doi none = base ++ ":" ++ year ++ "None" := by
  simp [gen_citekey, hd, gen_title_hash, pyFormat]

theorem C10_witness :
    gen_citekey ("smith") ("2020") (some ("")) none = "smith" ++ ":" ++ "2020" ++ "None" :=
  C10_gen_citekey_none_title ("smith") ("2020") (some ("")) (by decide)

/-! ## Listing: which records are processed -/

/-- The pair produced by `list_citations` for a row whose date is present. -/
def citationEntry (p : Publication) : String × String :=
  (pyFormat p.author_year_string ++ " " ++ pyFormat p.attributed_title,
   gen_citekey (pyFormat p.citekey_base) (yearSlice (p.publication_date.getD ""))
     p.doi p.canonical_title)

/-- `list_citations` yields one entry per row with a present (non-`NULL`)
`publication_date`, in store order; rows with a missing date — the only way
the guarded block can raise — are skipped. -/
theorem list_citations_eq (db : DB) :
    list_citations db =
      (db.publications.filter (fun p => p.publication_date.isSome)).map citationEntry := by
  obtain ⟨pubs, pdfs⟩ := db
  show pubs.filterMap _ = _
  induction pubs with
  | nil => rfl
  | cons p rest ih =>
    simp only [List.filterMap_cons, List.filter_cons]
    cases hpd : p.publication_date with
    | none => simpa [hpd] using ih
    | some date => simpa [hpd, citationEntry] using ih

/-- C5 (amended): in `list_citations`, a record is silently skipped exactly
when its `publication_date` is missing (`NULL`); a record whose date is
present but too short is NOT skipped — Python slicing never raises, so it
appears with the truncated (possibly empty) year `date[2:6]`. All other
records appear, and no per-record failure aborts the listing (the function is
total on every store). -/
theorem C5_skips_only_missing_dates (db : DB) :
    list_citations db =
      (db.publications.filter (fun p => p.publication_date.isSome)).map citationEntry :=
  list_citations_eq db

/-- C5 counterexample: the claim says a record whose `publication_date` is
too short to contain characters at offsets 2..5 (here "99") is skipped and
does not appear in the output; in fact `"99"[2:6]` is just `""` and the
record appears, with the degenerate citekey "s:None". -/
theorem C5_counterexample :
    list_citations ⟨[⟨0, some ("A"), some ("T"), none, none, some ("s"), some ("99")⟩], []⟩ =
      [("A T", "s:None")] := by decide

/-- C8: the listing operation (`get_citations`) returns exactly the reverse
of the store's natural iteration order over the successfully-processed
records (those with a present `publication_date`). -/
theorem C8_listing_reversed (db : DB) :
    get_citations db =
      ((db.publications.filter (fun p => p.publication_date.isSome)).map citationEntry).reverse := by
  unfold get_citations
  rw [list_citations_eq]

/-! ## Resolver claims -/

/-- C1: for a store with one publication record (citekey_base "smith",
publication date whose characters at offsets 2..5 are "2020", doi
"10.1/xyz") and exactly one attachment path "a/b.pdf" for that record,
resolving the citekey `"smith:2020" ++ doiHash("10.1/xyz")` returns the
configured base directory joined with "a/b.pdf" — the first attachment path
of the matched record. -/
theorem C1_find_pdf_success (rid : Nat) (ay att ct : Option String) (d : String)
    (hd : yearSlice d = "2020") (h : String)
    (hh : gen_doi_hash (some ("10.1/xyz")) = some h) :
    find_pdf ⟨[⟨rid, ay, att, ct, some ("10.1/xyz"), some ("smith"), some d⟩],
              [⟨rid, "a/b.pdf"⟩]⟩ ("smith:2020" ++ h) =
      Except.ok (pathJoin basepath ("a/b.pdf")) := by
  have hgh : gen_hash ("10.1/xyz") doi_suffix = h := by
    simpa [gen_doi_hash] using hh
  have hlit : ("smith:2020" : String) ++ h = "smith" ++ ":" ++ "2020" ++ h := by
    apply String.ext
    simp [String.data_append]
  have hsplit : split_key (("smith:2020" : String) ++ h) = some ("smith", "2020", h) := by
    rw [hlit]
    exact split_key_citekey ("smith") ("2020") h (by decide) (by decide) (by decide)
      (hgh ▸ gen_hash_ne_colon ("10.1/xyz") doi_suffix doi_suffix_ne_colon)
  simp [find_pdf, hsplit, matchesBaseYear, sqlSubstrYear, hd, scanCandidates,
    hashMatches, hh, pdfPaths]

theorem C1_witness :
    find_pdf ⟨[⟨0, none, none, none, some ("10.1/xyz"), some ("smith"), some ("xx2020")⟩],
              [⟨0, "a/b.pdf"⟩]⟩ ("smith:2020" ++ "br") =
      Except.ok (pathJoin basepath ("a/b.pdf")) :=
  C1_find_pdf_success 0 none none none ("xx2020") (by decide) ("br") (by decide)

/-- The candidate scan is exhausted without a result exactly when every
hash-matching candidate has no attachment path. -/
theorem scanCandidates_eq_none (db : DB) (h : String) (l : List Publication) :
    scanCandidates db h l = none ↔
      ∀ p ∈ l, hashMatches h p = true → pdfPaths db p.rowid = [] := by
  induction l with
  | nil => simp [scanCandidates]
  | cons p rest ih =>
    simp only [scanCandidates]
    cases hm : hashMatches h p with
    | false => simp [hm, ih]
    | true =>
      cases hp : pdfPaths db p.rowid with
      | nil => simp [hm, hp, ih]
      | cons q qs => simp [hm, hp]

/-- The candidate scan produces a path exactly when some hash-matching
candidate has at least one attachment path. -/
theorem scanCandidates_some_iff (db : DB) (h : String) (l : List Publication) :
    (∃ path, scanCandidates db h l = some path) ↔
      ∃ p ∈ l, hashMatches h p = true ∧ pdfPaths db p.rowid ≠ [] := by
  induction l with
  | nil => simp [scanCandidates]
  | cons p rest ih =>
    simp only [scanCandidates]
    cases hm : hashMatches h p with
    | false => simp [hm, ih]
    | true =>
      cases hp : pdfPaths db p.rowid with
      | nil => simp [hm, hp, ih]
      | cons q qs => simp [hm, hp]

/-- C4: for a well-formed citekey, `find_pdf` returns a path if and only if
some base/year candidate whose recomputed title hash or doi hash equals the
citekey's hash component has at least one attachment path; when no candidate
matches, or all matches lack a path, it fails with the error that names the
unresolved citekey; and a hash-matching candidate with no attachment path is
skipped, the scan continuing with the remaining candidates. -/
theorem C4_find_pdf_iff (db : DB) (ck base year h : String)
    (hs : split_key ck = some (base, year, h)) :
    ((∃ path, find_pdf db ck = Except.ok path) ↔
       ∃ p ∈ db.publications.filter (matchesBaseYear base year),
         hashMatches h p = true ∧ pdfPaths db p.rowid ≠ []) ∧
    ((∀ p ∈ db.publications.filter (matchesBaseYear base year),
        hashMatches h p = true → pdfPaths db p.rowid = []) →
      find_pdf db ck =
        Except.error (PdfError.noMatchingPdf ("No matching PDF found for " ++ ck))) ∧
    (∀ (p : Publication) (l : List Publication), hashMatches h p = true →
        pdfPaths db p.rowid = [] →
        scanCandidates db h (p :: l) = scanCandidates db h l) := by
  have hfp : find_pdf db ck =
      match scanCandidates db h (db.publications.filter (matchesBaseYear base year)) with
      | some path => Except.ok path
      | none => Except.error (.noMatchingPdf ("No matching PDF found for " ++ ck)) := by
    simp [find_pdf, hs]
  refine ⟨?_, ?_, ?_⟩
  · rw [← scanCandidates_some_iff db h (db.publications.filter (matchesBaseYear base year))]
    cases hscan : scanCandidates db h (db.publications.filter (matchesBaseYear base year)) with
    | some path => simp [hfp, hscan]
    | none => simp [hfp, hscan]
  · intro hall
    rw [hfp, (scanCandidates_eq_none db h _).mpr hall]
  · intro p l hm hp
    simp [scanCandidates, hm, hp]

theorem C4_witness :
    ((∃ path, find_pdf ⟨[], []⟩ ("smith:2020bc") = Except.ok path) ↔
       ∃ p ∈ (DB.mk [] []).publications.filter (matchesBaseYear ("smith") ("2020")),
         hashMatches ("bc") p = true ∧ pdfPaths ⟨[], []⟩ p.rowid ≠ []) ∧
    ((∀ p ∈ (DB.mk [] []).publications.filter (matchesBaseYear ("smith") ("2020")),
        hashMatches ("bc") p = true → pdfPaths ⟨[], []⟩ p.rowid = []) →
      find_pdf ⟨[], []⟩ ("smith:2020bc") =
        Except.error (PdfError.noMatchingPdf ("No matching PDF found for " ++ "smith:2020bc"))) ∧
    (∀ (p : Publication) (l : List Publication), hashMatches ("bc") p = true →
        pdfPaths ⟨[], []⟩ p.rowid = [] →
        scanCandidates ⟨[], []⟩ ("bc") (p :: l) = scanCandidates ⟨[], []⟩ ("bc") l) :=
  C4_find_pdf_iff ⟨[], []⟩ ("smith:2020bc") ("smith") ("2020") ("bc") (by decide)

/-! ## Parser lemmas -/

/-- Skipping whitespace only discards characters of the input. -/
theorem skipWs_subset : ∀ (cs : List Char) (pos : Nat), ∀ c ∈ (skipWs cs pos).1, c ∈ cs
  | [], _, _, hc => hc
  | a :: rest, pos, c, hc => by
      by_cases hw : isWsChar a = true
      · have hmem := skipWs_subset rest (pos + 1) c (by simpa [skipWs, hw] using hc)
        exact List.mem_cons_of_mem _ hmem
      · simpa [skipWs, hw] using hc

/-- A group match can only start at an opening brace. -/
theorem parseGroup_none_of_no_brace (cs : List Char) (pos : Nat)
    (h : ∀ c ∈ cs, c ≠ braceOpen) : parseGroup cs pos = none := by
  unfold parseGroup
  cases hws : (skipWs cs pos).1 with
  | nil => simp [hws]
  | cons c rest =>
    have hc : c ∈ cs := skipWs_subset cs pos c (by rw [hws]; exact List.mem_cons_self _ _)
    have hne : (c == braceOpen) = false := by
      simpa using h c hc
    simp [hws, hne]

/-- On brace-free input the scanString sweep finds nothing. -/
theorem scanAux_no_brace : ∀ (fuel : Nat) (cs : List Char) (pos : Nat),
    (∀ c ∈ cs, c ≠ braceOpen) → scanAux fuel cs pos = []
  | 0, _, _, _ => rfl
  | fuel + 1, cs, pos, h => by
      simp only [scanAux, parseGroup_none_of_no_brace cs pos h]
      cases cs with
      | nil => rfl
      | cons a rest =>
          exact scanAux_no_brace fuel rest (pos + 1)
            (fun c hc => h c (List.mem_cons_of_mem _ hc))

/-- `Word(chars, exact=n)` really takes `n` characters of the class. -/
theorem takeExact_spec (p : Char → Bool) : ∀ (n : Nat) (cs t r : List Char),
    takeExact p n cs = some (t, r) → t.length = n ∧ ∀ c ∈ t, p c = true := by
  intro n
  induction n with
  | zero =>
    intro cs t r h
    simp only [takeExact, Option.some.injEq, Prod.mk.injEq] at h
    obtain ⟨rfl, rfl⟩ := h
    exact ⟨rfl, fun c hc => absurd hc (List.not_mem_nil c)⟩
  | succ m ih =>
    intro cs t r h
    cases cs with
    | nil => simp [takeExact] at h
    | cons a rest =>
      by_cases hp : p a = true
      · simp only [takeExact, hp, if_true] at h
        cases hrec : takeExact p m rest with
        | none => rw [hrec] at h; simp at h
        | some tr =>
          rw [hrec] at h
          simp only [Option.map_some', Option.some.injEq, Prod.mk.injEq] at h
          obtain ⟨rfl, rfl⟩ := h
          have hspec := ih rest tr.1 tr.2 (by rw [hrec])
          refine ⟨by simp [hspec.1], ?_⟩
          intro c hc
          rcases List.mem_cons.mp hc with rfl | hc2
          · exact hp
          · exact hspec.2 c hc2
      · simp [takeExact, hp] at h

/-- Characters kept by `takeWhile` satisfy the predicate. -/
theorem takeWhile_sat (p : Char → Bool) : ∀ (l : List Char), ∀ c ∈ l.takeWhile p, p c = true
  | [], c, hc => absurd hc (List.not_mem_nil c)
  | a :: rest, c, hc => by
      by_cases hp : p a = true
      · rw [List.takeWhile_cons, if_pos hp] at hc
        rcases List.mem_cons.mp hc with rfl | hc2
        · exact hp
        · exact takeWhile_sat p rest c hc2
      · rw [List.takeWhile_cons, if_neg hp] at hc
        cases hc

/-- A recognized key token is exactly letters, a colon, 4 digits, 2 letters. -/
theorem parseKey_shape (cs : List Char) (pos : Nat) (s : String) (rest : List Char)
    (p2 : Nat) (h : parseKey cs pos = some (s, rest, p2)) :
    ∃ ls ds al, s.data = ls ++ ':' :: (ds ++ al) ∧ ls ≠ [] ∧
      (∀ c ∈ ls, isAlphaChar c = true) ∧
      ds.length = 4 ∧ (∀ c ∈ ds, isDigitChar c = true) ∧
      al.length = 2 ∧ (∀ c ∈ al, isAlphaChar c = true) := by
  simp only [parseKey] at h
  by_cases hl : (cs.takeWhile isAlphaChar).isEmpty = true
  · rw [if_pos hl] at h
    exact absurd h (by simp)
  · rw [if_neg hl] at h
    by_cases hc0 : (cs.dropWhile isAlphaChar).head? = some ':'
    · rw [if_pos hc0] at h
      cases hd4 : takeExact isDigitChar 4 (cs.dropWhile isAlphaChar).tail with
      | none => rw [hd4] at h; exact absurd h (by simp)
      | some dsr =>
        rw [hd4, Option.some_bind] at h
        cases ha2 : takeExact isAlphaChar 2 dsr.2 with
        | none => rw [ha2] at h; exact absurd h (by simp)
        | some alr =>
          rw [ha2, Option.some_bind] at h
          simp only [Option.some.injEq, Prod.mk.injEq] at h
          obtain ⟨hs, -, -⟩ := h
          have hdspec := takeExact_spec isDigitChar 4 (cs.dropWhile isAlphaChar).tail
            dsr.1 dsr.2 (by rw [hd4])
          have haspec := takeExact_spec isAlphaChar 2 dsr.2 alr.1 alr.2 (by rw [ha2])
          refine ⟨cs.takeWhile isAlphaChar, dsr.1, alr.1, ?_, ?_, ?_, hdspec.1, hdspec.2,
            haspec.1, haspec.2⟩
          · rw [← hs]
          · simpa [List.isEmpty_iff] using hl
          · exact takeWhile_sat isAlphaChar cs
    · rw [if_neg hc0] at h
      exact absurd h (by simp)

/-- C9: scanning "see \x7bsmith:2020ab, jones:2019cd\x7d for details" yields
exactly one match spanning the bracketed group (offsets 4 to 32), containing
the keys "smith:2020ab" and "jones:2019cd" in that order at their character
offsets 5 and 19; a key is recognized only as one-or-more alphabetic
characters, a colon, exactly 4 digits and exactly 2 alphabetic characters;
and text containing no braces yields an empty sequence of matches. -/
theorem C9_scan_citation_groups (text : String)
    (hnb : ∀ c ∈ text.data, c ≠ braceOpen ∧ c ≠ braceClose) :
    scan ("see \x7bsmith:2020ab, jones:2019cd\x7d for details") =
      [([(5, "smith:2020ab"), (19, "jones:2019cd")], 4, 32)] ∧
    scan text = [] ∧
    (∀ (cs : List Char) (pos : Nat) (s : String) (rest : List Char) (p2 : Nat),
      parseKey cs pos = some (s, rest, p2) →
      ∃ ls ds al, s.data = ls ++ ':' :: (ds ++ al) ∧ ls ≠ [] ∧
        (∀ c ∈ ls, isAlphaChar c = true) ∧
        ds.length = 4 ∧ (∀ c ∈ ds, isDigitChar c = true) ∧
        al.length = 2 ∧ (∀ c ∈ al, isAlphaChar c = true)) := by
  refine ⟨by decide, ?_, parseKey_shape⟩
  exact scanAux_no_brace _ text.data 0 (fun c hc => (hnb c hc).1)

theorem C9_witness : scan ("no braces here") = [] :=
  (C9_scan_citation_groups ("no braces here") (by decide)).2.1

end Citations
